import Mathlib

/-!
Verification of the project-context aggregation engine of the `mytools`
repository (`src/mytools/tools/context_generator.py` and the file branch of
`src/mytools/utils.py:should_ignore`).

Strings are modelled as `List Char` (Python `len`, slicing and concatenation
count Unicode code points, exactly as `List Char` does).  Filesystem state is
modelled by an explicit `Entry` tree; file reads are modelled by a `FileData`
value that is either the decoded text of the file or the message of the raised
exception.  Functions that recurse through the directory tree take a fuel
argument so that they are structurally recursive and kernel-evaluable; every
call site supplies fuel larger than the recursion depth actually used.
-/

namespace ContextGen

set_option maxRecDepth 100000

/-- Converts a Lean string literal to the `List Char` representation used
throughout this development. -/
def S (s : String) : List Char := s.toList

/-- Python `str.strip()` whitespace characters (ASCII part; the source code is
only ever applied to ASCII whitespace). -/
def isPySpace (c : Char) : Bool :=
  c = ' ' || c = '\t' || c = '\n' || c = '\r' || c = '\x0b' || c = '\x0c'

/-! ## fnmatch

`_should_ignore_file` and `_is_important_file` in `context_generator.py` call
`fnmatch.fnmatch(filename, pattern)` from the Python standard library.  On a
POSIX system (`os.path.normcase` is the identity) this is full shell-style
glob matching: `*` matches any run of characters, `?` matches any single
character, `[seq]` matches a character in the set (with `!` negation, ranges,
a literal `]` first, and an unterminated `[` taken literally).  The matcher
below implements exactly those semantics.  It is driven by a fuel argument to
make it structurally recursive; every recursive call strictly decreases
`pat.length + str.length`, so fuel `pat.length + str.length + 1` never runs
out. -/

/-- Membership of character `c` in the body of an fnmatch bracket expression
(ranges `a-b` included; a trailing `-` is literal). -/
def classMatch (c : Char) : List Char → Bool
  | a :: '-' :: b :: rest => (a ≤ c && c ≤ b) || classMatch c rest
  | a :: rest => (a = c) || classMatch c rest
  | [] => false

/-- Splits `rest` (the pattern text following `[`) into the negation flag, the
bracket-expression body and the remainder of the pattern after the closing
`]`.  Returns `none` when there is no closing `]` (then `[` is literal).
Mirrors the scan in `fnmatch.translate`: an optional leading `!`, then an
optional literal `]`, then everything up to the next `]`. -/
def splitClass (rest : List Char) : Option (Bool × List Char × List Char) :=
  let (neg, rest1) := match rest with
    | '!' :: r => (true, r)
    | r => (false, r)
  match rest1 with
  | ']' :: r2 =>
    match breakRB r2 with
    | some (body, rem) => some (neg, ']' :: body, rem)
    | none => none
  | r =>
    match breakRB r with
    | some (body, rem) => some (neg, body, rem)
    | none => none
where
  /-- Splits a list at the first `]`, returning the part before it and the
  part after it. -/
  breakRB : List Char → Option (List Char × List Char)
    | [] => none
    | ']' :: r => some ([], r)
    | c :: r =>
      match breakRB r with
      | some (body, rem) => some (c :: body, rem)
      | none => none

/-- Fuel-driven fnmatch matcher: `fnmatchFuel fuel pat str` decides whether
glob pattern `pat` matches the whole of `str`. -/
def fnmatchFuel : Nat → List Char → List Char → Bool
  | 0, _, _ => false
  | _ + 1, [], str => str.isEmpty
  | fuel + 1, '*' :: ps, str =>
    fnmatchFuel fuel ps str ||
      (match str with
       | [] => false
       | _ :: str1 => fnmatchFuel fuel ('*' :: ps) str1)
  | fuel + 1, '?' :: ps, str =>
    match str with
    | [] => false
    | _ :: str1 => fnmatchFuel fuel ps str1
  | fuel + 1, '[' :: ps, str =>
    match splitClass ps with
    | some (neg, body, rem) =>
      (match str with
       | [] => false
       | c :: str1 => (classMatch c body != neg) && fnmatchFuel fuel rem str1)
    | none =>
      (match str with
       | [] => false
       | c :: str1 => (c = '[') && fnmatchFuel fuel ps str1)
  | fuel + 1, p :: ps, str =>
    match str with
    | [] => false
    | c :: str1 => (p = c) && fnmatchFuel fuel ps str1

/-- Python `fnmatch.fnmatch(str, pat)` (POSIX case-sensitive semantics). -/
def fnmatch (pat str : List Char) : Bool :=
  fnmatchFuel (pat.length + str.length + 1) pat str

/-! ## Ignore matchers -/

/-- `FullContextTool._should_ignore_file`: true iff some pattern of
`ignorePatterns` fnmatch-matches `filename`. -/
def should_ignore_file_cg (filename : List Char) (ignorePatterns : List (List Char)) : Bool :=
  ignorePatterns.any (fun p => fnmatch p filename)

/-- The file branch of `utils.should_ignore`: exact membership, or a pattern
with a leading `*` whose remainder is a suffix of the name, or a pattern with
a trailing `*` whose remainder is a start of the name. -/
def should_ignore_file_utils (name : List Char) (ignoreFiles : List (List Char)) : Bool :=
  if ignoreFiles.contains name then true
  else
    ignoreFiles.any (fun p =>
      (p.head? = some '*' && (p.drop 1).isSuffixOf name) ||
      (p.getLast? = some '*' && p.dropLast.isPrefixOf name))

/-- The three-case ignore rule exactly as the specification words it: the name
equals some pattern, or some pattern begins with `*` and the name ends with
that pattern minus the leading `*`, or some pattern ends with `*` and the name
starts with that pattern minus the trailing `*`. -/
def IgnoreFileRule (name : List Char) (patterns : List (List Char)) : Prop :=
  name ∈ patterns ∨
    ∃ p ∈ patterns,
      (p.head? = some '*' ∧ p.drop 1 <:+ name) ∨
      (p.getLast? = some '*' ∧ p.dropLast <+: name)

/-! ## splitext and the important-file filter -/

/-- Suffix of a (dot-free-of-separators) name starting at its last `.`, or
`[]` when there is no dot: `lastDotSuffix "a.tar.gz" = ".gz"`. -/
def lastDotSuffix : List Char → List Char
  | [] => []
  | '.' :: rest =>
    let r := lastDotSuffix rest
    if r.isEmpty then '.' :: rest else r
  | _ :: rest => lastDotSuffix rest

/-- Extension part of Python `os.path.splitext(filename)[1]` for a bare file
name: leading dots do not start an extension (`.env` has none). -/
def splitext_ext (name : List Char) : List Char :=
  lastDotSuffix (name.dropWhile (fun c => c = '.'))

/-- The fixed `important_patterns` list of `_get_smart_files_content`. -/
def important_patterns : List (List Char) :=
  [S "README*", S "readme*", S "requirements*.txt", S "pyproject.toml", S "package.json",
   S "setup.py", S "setup.cfg", S "*.py", S "*.js", S "*.ts", S "*.jsx", S "*.tsx",
   S "*.html", S "*.css", S "*.json", S "*.yaml", S "*.yml"]

/-- The fixed `PRIORITY_EXTENSIONS` set of the tool. -/
def PRIORITY_EXTENSIONS : List (List Char) :=
  [S ".py", S ".js", S ".jsx", S ".ts", S ".tsx",
   S ".html", S ".htm", S ".css", S ".scss", S ".sass",
   S ".json", S ".yaml", S ".yml", S ".toml",
   S ".md", S ".txt", S ".rst",
   S ".sql", S ".graphql", S ".gql",
   S ".java", S ".cpp", S ".c", S ".h", S ".hpp",
   S ".go", S ".rs", S ".rb", S ".php",
   S ".cs", S ".swift", S ".kt", S ".dart"]

/-- `FullContextTool._is_important_file`: an fnmatch hit on one of the
important patterns, or a lower-cased extension in the priority set. -/
def is_important_file (filename : List Char) (patterns : List (List Char)) : Bool :=
  patterns.any (fun p => fnmatch p filename) ||
    PRIORITY_EXTENSIONS.contains ((splitext_ext filename).map Char.toLower)

/-! ## Safe file reading -/

/-- Outcome of opening and reading a file: either its decoded text (the
`errors='ignore'` decode never fails) or the message of the exception raised
while opening or reading it. -/
inductive FileData where
  | content (text : List Char)
  | ioError (msg : List Char)
deriving DecidableEq

/-- The fixed truncation marker appended by `_read_file_safe`. -/
def truncMarker : List Char := S "\n\n...[File truncated due to size limit]..."

/-- The inline error string `_read_file_safe` builds from an exception
message (Python `f"[Error reading file: {e}]"`). -/
def errorText (msg : List Char) : List Char :=
  S "[Error reading file: " ++ msg ++ S "]"

/-- `FullContextTool._read_file_safe`: reads at most `max_size * 2` characters
(`f.read` in text mode counts characters), truncates to `max_size` characters
plus the marker when longer than `max_size`, returns `none` for
whitespace-only results (Python `content if content.strip() else None`), and
converts an exception into an inline error string. -/
def read_file_safe (d : FileData) (maxSize : Nat) : Option (List Char) :=
  match d with
  | .ioError msg => some (errorText msg)
  | .content text =>
    let content := text.take (maxSize * 2)
    let content :=
      if content.length > maxSize then content.take maxSize ++ truncMarker else content
    if content.any (fun ch => !isPySpace ch) then some content else none

/-! ## Filesystem model and traversal

A directory entry is a file (with the outcome of reading it) or a directory
with its children in directory-listing (`os.scandir`) order; `readable = false`
means listing the directory raises `PermissionError`/`OSError`. -/

/-- A node of the modelled directory tree. -/
inductive Entry where
  | file (name : List Char) (data : FileData)
  | dir (name : List Char) (readable : Bool) (children : List Entry)

/-- Name of an entry. -/
def Entry.entryName : Entry → List Char
  | .file n _ => n
  | .dir n _ _ => n

/-- `Path.is_dir()` of an entry. -/
def Entry.isDir : Entry → Bool
  | .file _ _ => false
  | .dir _ _ _ => true

/-- Whether listing the entry succeeds (always true for files; meaningful for
directories only). -/
def Entry.readableE : Entry → Bool
  | .file _ _ => true
  | .dir _ r _ => r

/-- Children of a directory entry (empty for files). -/
def Entry.childrenE : Entry → List Entry
  | .file _ _ => []
  | .dir _ _ cs => cs

/-- A file met during `os.walk`: its path relative to the project root, its
bare name, and the outcome of reading it. -/
structure WalkFile where
  relPath : List Char
  name : List Char
  data : FileData

/-- `os.path.relpath(os.path.join(root, name), project_path)` when `root` is
`pfx` below the project root: POSIX joining with `/`. -/
def joinRel (pfx name : List Char) : List Char :=
  if pfx.isEmpty then name else pfx ++ '/' :: name

/-- The files produced, in order, by `os.walk` with the in-loop prune
`dirs[:] = [d for d in dirs if d not in ignore_dirs]` (top-down: the files of
a directory come before the files of its subtrees; subtrees are visited in
listing order; a directory that cannot be listed contributes nothing).  The
fuel dominates the nesting depth at every call site. -/
def walkChildren (ig : List (List Char)) : Nat → List Char → List Entry → List WalkFile
  | 0, _, _ => []
  | fuel + 1, pfx, children =>
    children.filterMap (fun e =>
      match e with
      | .file n d => some ⟨joinRel pfx n, n, d⟩
      | .dir _ _ _ => none)
    ++ children.flatMap (fun e =>
      match e with
      | .file _ _ => []
      | .dir n readable cs =>
        if ig.contains n then []
        else if readable then walkChildren ig fuel (joinRel pfx n) cs
        else [])

/-! ## Budgeted aggregation (smart / all modes) -/

/-- Selection mode token of the configuration. -/
inductive Mode where
  | smart
  | all
  | custom
deriving DecidableEq

/-- The `config['selection_mode']` string of a mode. -/
def modeName : Mode → List Char
  | .smart => S "smart"
  | .all => S "all"
  | .custom => S "custom"

/-- The configuration dictionary built by `_get_user_config`. -/
structure Config where
  ignore_dirs : List (List Char)
  ignore_files : List (List Char)
  selection_mode : Mode
  max_file_size : Nat
  max_total_size : Nat

/-- The early-return marker of `_get_smart_files_content` and
`_get_all_files_content`. -/
def limitMarkerFull : List Char := S "\n\n[⚠️  Total size limit reached. Some files omitted.]\n"

/-- The (shorter) limit marker of `_get_custom_files_content`. -/
def limitMarkerShort : List Char := S "\n\n[⚠️  Total size limit reached.]\n"

/-- `FullContextTool._format_file_content`. -/
def formatFileContent (relPath content : List Char) : List Char :=
  let separator := List.replicate 60 '='
  S "\n" ++ separator ++ S "\n📄 FILE: " ++ relPath ++ S "\n" ++ separator
    ++ S "\n" ++ content ++ S "\n"

/-- State of the accumulation loop of the smart/all strategies: `go` carries
`(content_str, total_size)` while the loop is running; `stop` carries the
returned string and the final value of the `total_size` local once the early
`return` has fired. -/
inductive AggState where
  | go (acc : List Char) (total : Nat)
  | stop (acc : List Char) (total : Nat)
deriving DecidableEq

/-- The string a finished run returns. -/
def AggState.out : AggState → List Char
  | .go acc _ => acc
  | .stop acc _ => acc

/-- The value of the `total_size` counter. -/
def AggState.total : AggState → Nat
  | .go _ t => t
  | .stop _ t => t

/-- One iteration of the per-file loop shared by `_get_smart_files_content`
(`useImportant = true`) and `_get_all_files_content` (`useImportant = false`):
skip ignored files, skip unimportant files in smart mode, read, count the
content length, return early with the marker on a breach, otherwise append the
formatted block.  Once the loop has returned (`stop`), later files leave the
state untouched. -/
def stepFile (cfg : Config) (useImportant : Bool) (f : WalkFile) : AggState → AggState
  | .stop acc t => .stop acc t
  | .go acc t =>
    if should_ignore_file_cg f.name cfg.ignore_files then .go acc t
    else if useImportant && !is_important_file f.name important_patterns then .go acc t
    else
      match read_file_safe f.data cfg.max_file_size with
      | none => .go acc t
      | some content =>
        let total := t + content.length
        if total > cfg.max_total_size then .stop (acc ++ limitMarkerFull) total
        else .go (acc ++ formatFileContent f.relPath content) total

/-- The accumulation loop over a file sequence, started from
`content_str, total_size = "", 0`. -/
def aggregateFiles (cfg : Config) (useImportant : Bool) (files : List WalkFile) : List Char :=
  (files.foldl (fun s f => stepFile cfg useImportant f s) (.go [] 0)).out

/-- `FullContextTool._get_smart_files_content`. -/
def smartFilesContent (cfg : Config) (fuel : Nat) (root : List Entry) : List Char :=
  aggregateFiles cfg true (walkChildren cfg.ignore_dirs fuel [] root)

/-- `FullContextTool._get_all_files_content`. -/
def allFilesContent (cfg : Config) (fuel : Nat) (root : List Entry) : List Char :=
  aggregateFiles cfg false (walkChildren cfg.ignore_dirs fuel [] root)

/-! ## Custom selection -/

/-- One user-selected path of custom mode, already resolved against the
project root: either an existing file or an existing directory (with its
relative path from the project root). -/
inductive Selection where
  | selFile (relPath : List Char) (data : FileData)
  | selDir (relPath : List Char) (readable : Bool) (children : List Entry)

/-- Per-file body of the `os.walk` loop inside the directory branch of
`_get_custom_files_content`: ignore filter, read, append — with no budget
check. -/
def customDirStep (cfg : Config) (st : List Char × Nat) (f : WalkFile) : List Char × Nat :=
  if should_ignore_file_cg f.name cfg.ignore_files then st
  else
    match read_file_safe f.data cfg.max_file_size with
    | none => st
    | some content => (st.1 ++ formatFileContent f.relPath content, st.2 + content.length)

/-- Processing of one selected path in `_get_custom_files_content`: a file is
read and appended directly (no ignore filter, no budget check); a directory is
walked like in all-mode and every surviving file is appended (no budget check
inside the walk). -/
def customSelAccum (cfg : Config) (fuel : Nat) (st : List Char × Nat) :
    Selection → List Char × Nat
  | .selFile rp d =>
    match read_file_safe d cfg.max_file_size with
    | none => st
    | some content => (st.1 ++ formatFileContent rp content, st.2 + content.length)
  | .selDir rp readable cs =>
    (if readable then walkChildren cfg.ignore_dirs fuel rp cs else []).foldl
      (customDirStep cfg) st

/-- The `for selected_path in selected_paths` loop of
`_get_custom_files_content`: after each selected path the budget is checked;
on a breach the short marker is appended and the loop breaks. -/
def customLoop (cfg : Config) (fuel : Nat) : List Char → Nat → List Selection → List Char
  | acc, _, [] => acc
  | acc, t, sel :: rest =>
    let st := customSelAccum cfg fuel (acc, t) sel
    if st.2 > cfg.max_total_size then st.1 ++ limitMarkerShort
    else customLoop cfg fuel st.1 st.2 rest

/-- `FullContextTool._get_custom_files_content` after the interactive path
gathering: with no selected paths it falls back to smart selection on the
project root, otherwise it runs the accumulation loop. -/
def customFilesContent (cfg : Config) (fuel : Nat) (root : List Entry)
    (selected : List Selection) : List Char :=
  if selected.isEmpty then smartFilesContent cfg fuel root
  else customLoop cfg fuel [] 0 selected

/-! ## Tree renderer -/

/-- Whether a name is hidden (`name.startswith('.')`). -/
def startsWithDot : List Char → Bool
  | '.' :: _ => true
  | _ => false

/-- Lexicographic (code-point) order on names, as Python compares the path
objects of one directory. -/
def listCharLe : List Char → List Char → Bool
  | [], _ => true
  | _ :: _, [] => false
  | a :: as, b :: bs => if a = b then listCharLe as bs else decide (a < b)

/-- Stable insertion of an entry into a name-sorted list. -/
def insertSorted (e : Entry) : List Entry → List Entry
  | [] => [e]
  | x :: xs =>
    if listCharLe x.entryName e.entryName then x :: insertSorted e xs
    else e :: x :: xs

/-- `sorted(path.iterdir())`: names inside one directory are distinct, so any
lexicographic sort computes the Python result; insertion sort keeps the
definition kernel-evaluable. -/
def sortEntries : List Entry → List Entry
  | [] => []
  | e :: es => insertSorted e (sortEntries es)

/-- The placeholder emitted past the depth limit. -/
def depthLimitLine : List Char := S "└── [depth limit reached]\n"

/-- `_tree_recursive` of `_generate_tree`: depth guard, silent empty result
for unlistable directories, sorted listing partitioned into non-hidden
non-ignored directories followed by non-hidden files, connector/icon line per
item with the last sibling marked, and recursion into subdirectories with the
widened prefix.  The fuel dominates the recursion depth (which the depth guard
caps at `maxDepth + 2` calls) at every call site. -/
def treeRecursive (ig : List (List Char)) (maxDepth : Nat) :
    Nat → Bool → List Entry → List Char → Nat → List Char
  | 0, _, _, _, _ => []
  | fuel + 1, readable, children, pfx, depth =>
    if depth > maxDepth then pfx ++ depthLimitLine
    else if readable then
      let items := sortEntries children
      let dirs := items.filter (fun i =>
        i.isDir && !startsWithDot i.entryName && !ig.contains i.entryName)
      let files := items.filter (fun i => !i.isDir && !startsWithDot i.entryName)
      let allItems := dirs ++ files
      allItems.enum.flatMap (fun p =>
        let isLast := p.1 == allItems.length - 1
        let connector := if isLast then S "└── " else S "├── "
        let icon := if p.2.isDir then S "📁 " else S "📄 "
        (pfx ++ connector ++ icon ++ p.2.entryName ++ S "\n")
          ++ (if p.2.isDir then
                treeRecursive ig maxDepth fuel p.2.readableE p.2.childrenE
                  (pfx ++ (if isLast then S "    " else S "│   ")) (depth + 1)
              else []))
    else []

/-- `FullContextTool._generate_tree` on the project root (the root directory
itself is listable, as the tool runs inside it): default depth limit 5, fuel
7 ≥ the maximal call depth `maxDepth + 2`. -/
def generate_tree (ig : List (List Char)) (root : List Entry) : List Char :=
  S "Project Tree:\n" ++ treeRecursive ig 5 7 true root [] 0

/-! ## Output formatting -/

/-- Python `str.upper()` on the ASCII mode tokens. -/
def pyUpper (s : List Char) : List Char := s.map Char.toUpper

/-- The fixed trailing guidance text of the document. -/
def guidanceText : List Char :=
  S "💡 FOR AI ASSISTANT:\nThis is the complete context of the project. Please analyze the structure\nand code to provide accurate assistance. Key files include configuration\nfiles, source code, and documentation.\n\nWhen responding, reference specific files and paths from the structure above.\n"

/-- `FullContextTool._format_output` (the `datetime.now()` timestamp string is
passed in explicitly). -/
def formatOutput (projectName tree contents : List Char) (cfg : Config)
    (timestamp : List Char) : List Char :=
  S "🤖 PROJECT CONTEXT FOR AI ASSISTANCE\n"
    ++ List.replicate 60 '='
    ++ S "\nPROJECT: " ++ projectName
    ++ S "\nSELECTION MODE: " ++ pyUpper (modeName cfg.selection_mode)
    ++ S "\nGENERATED: " ++ timestamp
    ++ S "\n" ++ List.replicate 60 '='
    ++ S "\n\n📁 PROJECT STRUCTURE:\n" ++ tree
    ++ S "\n\n" ++ List.replicate 60 '='
    ++ S "\n📝 FILE CONTENTS:\n" ++ contents
    ++ S "\n\n" ++ List.replicate 60 '='
    ++ S "\n" ++ guidanceText

/-! ## Default configuration -/

/-- `FullContextTool.DEFAULT_IGNORE_DIRS`. -/
def DEFAULT_IGNORE_DIRS : List (List Char) :=
  [S ".git", S ".github", S ".gitlab",
   S ".venv", S "venv", S "env", S "virtualenv",
   S "__pycache__", S ".pytest_cache", S ".mypy_cache",
   S ".idea", S ".vscode", S ".vs",
   S "node_modules", S "bower_components",
   S "dist", S "build", S "out", S "target",
   S "instance", S ".extra", S "migrations", S "logs",
   S "static/images", S "media",
   S "coverage", S ".coverage",
   S "site-packages", S ".eggs", S "eggs"]

/-- `FullContextTool.DEFAULT_IGNORE_FILES`. -/
def DEFAULT_IGNORE_FILES : List (List Char) :=
  [S ".DS_Store", S "Thumbs.db", S "desktop.ini",
   S "package-lock.json", S "yarn.lock", S "pnpm-lock.yaml",
   S "full_project_context.txt", S "ai_context.txt",
   S "generate_context.py",
   S "db.sqlite3", S "database.db", S "*.db",
   S ".env", S ".env.local", S ".env.*",
   S ".antigravityignore", S ".gitignore",
   S "requirements.txt", S "requirements-dev.txt",
   S "poetry.lock", S "Pipfile.lock",
   S "*.pyc", S "*.pyo", S "*.pyd",
   S "*.so", S "*.dll", S "*.dylib",
   S "*.log", S "*.tmp", S "*.temp",
   S "*.cache", S "*.swp", S "*.swo"]

/-- The configuration `_get_user_config` returns when the user keeps all
defaults: default ignore sets and the 20000/200000 byte ceilings. -/
def defaultConfig (mode : Mode) : Config :=
  ⟨DEFAULT_IGNORE_DIRS, DEFAULT_IGNORE_FILES, mode, 20000, 200000⟩

/-! ## Helper lemmas -/

/-- Once the smart/all loop has returned, later files change nothing. -/
theorem foldl_stepFile_stop (cfg : Config) (b : Bool) (acc : List Char) (t : Nat) :
    ∀ gs : List WalkFile,
      gs.foldl (fun s f => stepFile cfg b f s) (.stop acc t) = .stop acc t
  | [] => rfl
  | _ :: gs => foldl_stepFile_stop cfg b acc t gs

/-- One loop iteration never decreases the `total_size` counter. -/
theorem stepFile_total_le (cfg : Config) (b : Bool) (f : WalkFile) (s : AggState) :
    s.total ≤ (stepFile cfg b f s).total := by
  cases s with
  | stop acc t => exact Nat.le_refl _
  | go acc t =>
    simp only [stepFile]
    split
    · exact Nat.le_refl _
    · split
      · exact Nat.le_refl _
      · cases read_file_safe f.data cfg.max_file_size with
        | none => exact Nat.le_refl _
        | some content =>
          by_cases hb : t + content.length > cfg.max_total_size
          · simp [hb, AggState.total]
          · simp [hb, AggState.total]

/-- The counter is non-decreasing along the whole loop. -/
theorem foldl_stepFile_total_le (cfg : Config) (b : Bool) :
    ∀ (fs : List WalkFile) (s : AggState),
      s.total ≤ (fs.foldl (fun s f => stepFile cfg b f s) s).total
  | [], _ => Nat.le_refl _
  | f :: fs, s =>
    Nat.le_trans (stepFile_total_le cfg b f s)
      (foldl_stepFile_total_le cfg b fs (stepFile cfg b f s))

/-- Rendering of a list of `(relative path, content)` blocks, in order. -/
def blocksText (bs : List (List Char × List Char)) : List Char :=
  bs.flatMap (fun b => formatFileContent b.1 b.2)

/-- Total number of content characters injected by a list of blocks. -/
def contentBytes (bs : List (List Char × List Char)) : Nat :=
  (bs.map (fun b => b.2.length)).sum

theorem blocksText_append (bs : List (List Char × List Char)) (b : List Char × List Char) :
    blocksText (bs ++ [b]) = blocksText bs ++ formatFileContent b.1 b.2 := by
  simp [blocksText]

theorem contentBytes_append (bs : List (List Char × List Char)) (b : List Char × List Char) :
    contentBytes (bs ++ [b]) = contentBytes bs + b.2.length := by
  simp [contentBytes]

/-- Invariant of the smart/all accumulation loop: while the loop runs, the
accumulated string is exactly the rendering of the blocks appended so far, the
counter equals their content bytes, and that stays within the budget; once the
loop has returned, the accumulated string is those blocks plus the marker, the
injected content bytes still respect the budget, and the counter exceeds the
budget by exactly the length of the single in-flight (uninjected) content. -/
def GoodState (maxTotal : Nat) : AggState → Prop
  | .go acc t => ∃ bs, acc = blocksText bs ∧ t = contentBytes bs ∧ t ≤ maxTotal
  | .stop acc t => ∃ bs extra,
      acc = blocksText bs ++ limitMarkerFull ∧ t = contentBytes bs + extra ∧
      contentBytes bs ≤ maxTotal ∧ maxTotal < t

theorem goodState_stepFile (cfg : Config) (b : Bool) (f : WalkFile) (s : AggState)
    (h : GoodState cfg.max_total_size s) :
    GoodState cfg.max_total_size (stepFile cfg b f s) := by
  cases s with
  | stop acc t => exact h
  | go acc t =>
    simp only [stepFile]
    split
    · exact h
    · split
      · exact h
      · cases read_file_safe f.data cfg.max_file_size with
        | none => exact h
        | some content =>
          obtain ⟨bs, hacc, ht, hle⟩ := h
          by_cases hb : t + content.length > cfg.max_total_size
          · simp only [hb, if_true]
            exact ⟨bs, content.length, by rw [hacc], by rw [ht], by omega, by omega⟩
          · simp only [hb, if_false]
            refine ⟨bs ++ [(f.relPath, content)], ?_, ?_, ?_⟩
            · rw [hacc, blocksText_append]
            · rw [ht, contentBytes_append]
            · omega

theorem goodState_foldl (cfg : Config) (b : Bool) :
    ∀ (fs : List WalkFile) (s : AggState), GoodState cfg.max_total_size s →
      GoodState cfg.max_total_size (fs.foldl (fun s f => stepFile cfg b f s) s)
  | [], _, h => h
  | f :: fs, s, h =>
    goodState_foldl cfg b fs (stepFile cfg b f s) (goodState_stepFile cfg b f s h)

instance (name : List Char) (P : List (List Char)) : Decidable (IgnoreFileRule name P) := by
  unfold IgnoreFileRule
  infer_instance

/-! ## Claims -/

/-- C1 counterexample: the claim states that `_should_ignore_file` obeys the
three-case rule (exact / leading-`*` suffix / trailing-`*` prefix, no other
wildcard semantics), but it delegates to Python `fnmatch`, which gives
mid-string wildcards meaning: pattern `a*b` matches name `axb` there, while
the three-case rule matches nothing. -/
theorem C1_cg_fnmatch_exceeds_three_case_rule :
    should_ignore_file_cg (S "axb") [S "a*b"] = true ∧
      ¬ IgnoreFileRule (S "axb") [S "a*b"] := by decide

/-- C1 (amended): the file branch of `utils.should_ignore` returns true
exactly on the three-case rule of the specification: the name equals a
pattern, or a pattern starts with `*` and the name ends with the pattern minus
the leading `*`, or a pattern ends with `*` and the name starts with the
pattern minus the trailing `*`.  (`_should_ignore_file` in the context
generator instead uses full fnmatch glob semantics; see the counterexample.) -/
theorem C1_utils_iff_three_case_rule (name : List Char) (P : List (List Char)) :
    should_ignore_file_utils name P = true ↔ IgnoreFileRule name P := by
  simp only [should_ignore_file_utils, IgnoreFileRule]
  split
  next hc =>
    simp only [true_iff]
    exact Or.inl (by simpa [List.contains] using hc)
  next hc =>
    rw [List.any_eq_true]
    constructor
    · rintro ⟨p, hp, hmatch⟩
      refine Or.inr ⟨p, hp, ?_⟩
      simpa [List.isSuffixOf_iff_suffix, List.isPrefixOf_iff_prefix] using hmatch
    · rintro (hmem | ⟨p, hp, hmatch⟩)
      · exact absurd (by simpa [List.contains] using hmem) hc
      · refine ⟨p, hp, ?_⟩
        simpa [List.isSuffixOf_iff_suffix, List.isPrefixOf_iff_prefix] using hmatch

/-- C4 counterexample: the claim quantifies over every `max_size`, but at
`max_size = 0` a one-character file is longer than `max_size` and the reader
returns `None` (Python `f.read(0)` reads nothing and the empty string is
falsy) instead of the claimed first-0-characters-plus-marker output. -/
theorem C4_max_size_zero_returns_none :
    0 < (S "a").length ∧ read_file_safe (.content (S "a")) 0 = none := by decide

/-- C4 (amended): for `max_size ≥ 1`, the reader depends only on the first
`max_size * 2` characters of the decoded file, and whenever the content is
longer than `max_size` it returns exactly the first `max_size` characters
followed by the fixed truncation marker — an output of length `max_size` plus
the marker length; the function is pure, so reading the same oversized file
twice yields this identical output each time. -/
theorem C4_read_truncation (c : List Char) (m : Nat) :
    read_file_safe (.content c) m = read_file_safe (.content (c.take (m * 2))) m
    ∧ (1 ≤ m → m < c.length →
        read_file_safe (.content c) m = some (c.take m ++ truncMarker)
        ∧ (c.take m ++ truncMarker).length = m + truncMarker.length) := by
  constructor
  · simp [read_file_safe, List.take_take]
  · intro h1 h2
    have hlen : ((c.take (m * 2)).length > m) := by
      rw [List.length_take]
      omega
    have htt : (c.take (m * 2)).take m = c.take m := by
      rw [List.take_take]
      congr 1
      omega
    have hmark : (c.take m ++ truncMarker).any (fun ch => !isPySpace ch) = true := by
      rw [List.any_append]
      have : truncMarker.any (fun ch => !isPySpace ch) = true := by decide
      simp [this]
    constructor
    · simp only [read_file_safe, hlen, if_true, htt, hmark]
    · rw [List.length_append, List.length_take]
      congr 1
      omega

/-- C4 witness. -/
theorem C4_read_truncation_witness :
    (1 ≤ 2 ∧ 2 < (S "abcde").length)
    ∧ read_file_safe (.content (S "abcde")) 2
        = read_file_safe (.content ((S "abcde").take (2 * 2))) 2
    ∧ read_file_safe (.content (S "abcde")) 2 = some ((S "abcde").take 2 ++ truncMarker)
    ∧ ((S "abcde").take 2 ++ truncMarker).length = 2 + truncMarker.length :=
  ⟨⟨by decide, by decide⟩, (C4_read_truncation (S "abcde") 2).1,
    ((C4_read_truncation (S "abcde") 2).2 (by decide) (by decide)).1,
    ((C4_read_truncation (S "abcde") 2).2 (by decide) (by decide)).2⟩

/-- C5: custom selection invoked with an empty list of selected paths returns
exactly the output of smart selection on the same root and configuration. -/
theorem C5_custom_empty_falls_back_to_smart (cfg : Config) (fuel : Nat)
    (root : List Entry) :
    customFilesContent cfg fuel root [] = smartFilesContent cfg fuel root := rfl

/-- A two-file directory used to exhibit the custom-mode budget behavior: the
first file alone already breaches the 5-byte budget. -/
def entriesC2 : List Entry :=
  [.file (S "a.txt") (.content (S "aaaaaa")), .file (S "b.txt") (.content (S "bb"))]

/-- A configuration with a 5-byte total budget and no ignore rules. -/
def cfgC2 : Config := ⟨[], [], .custom, 100, 5⟩

/-- C2 counterexample: the three strategies do not share the claimed budget
behavior.  With a 5-byte budget and a selected directory whose first file has
6 bytes of content, custom mode appends the breaching file, then still visits
and appends the next file, and terminates with its own shorter marker — while
all mode (the same walk) stops at once at the first file, appending the full
marker and nothing else. -/
theorem C2_custom_budget_behavior_differs :
    customFilesContent cfgC2 3 [] [.selDir (S "d") true entriesC2]
      = formatFileContent (S "d/a.txt") (S "aaaaaa")
        ++ formatFileContent (S "d/b.txt") (S "bb") ++ limitMarkerShort
    ∧ (S "aaaaaa").length > cfgC2.max_total_size
    ∧ allFilesContent ⟨[], [], .all, 100, 5⟩ 3 [.dir (S "d") true entriesC2]
        = limitMarkerFull := by decide

/-- C2 (amended): smart and all mode share the budget-stop behavior — once the
loop has returned no later file is visited (appending more files to the walk
does not change the output), and a file whose counted length breaches the
budget triggers an immediate return with the full marker, the breaching
content itself not being appended.  Custom mode checks the budget only after
each top-level selected path: when the accumulation of one selection breaches
the budget, the loop stops at that selection boundary with the short marker
appended to everything (breach included) accumulated so far. -/
theorem C2_budget_stop_behavior (cfg : Config) (b : Bool) :
    (∀ (fs gs : List WalkFile) (acc : List Char) (t : Nat),
        fs.foldl (fun s f => stepFile cfg b f s) (.go [] 0) = .stop acc t →
        aggregateFiles cfg b (fs ++ gs) = acc)
    ∧ (∀ (f : WalkFile) (acc : List Char) (t : Nat) (content : List Char),
        should_ignore_file_cg f.name cfg.ignore_files = false →
        (b && !is_important_file f.name important_patterns) = false →
        read_file_safe f.data cfg.max_file_size = some content →
        t + content.length > cfg.max_total_size →
        stepFile cfg b f (.go acc t) = .stop (acc ++ limitMarkerFull) (t + content.length))
    ∧ (∀ (fuel : Nat) (acc : List Char) (t : Nat) (sel : Selection)
         (rest : List Selection),
        (customSelAccum cfg fuel (acc, t) sel).2 > cfg.max_total_size →
        customLoop cfg fuel acc t (sel :: rest)
          = (customSelAccum cfg fuel (acc, t) sel).1 ++ limitMarkerShort) := by
  refine ⟨?_, ?_, ?_⟩
  · intro fs gs acc t h
    unfold aggregateFiles
    rw [List.foldl_append, h, foldl_stepFile_stop]
    rfl
  · intro f acc t content hig himp hread hb
    simp only [stepFile, hig, himp, hread, if_false, Bool.false_eq_true, hb, if_true]
  · intro fuel acc t sel rest hb
    simp only [customLoop, hb, if_true]

/-- C2 witness. -/
theorem C2_budget_stop_behavior_witness :
    ([⟨S "a.txt", S "a.txt", .content (S "aaaaaa")⟩] : List WalkFile).foldl
        (fun s f => stepFile cfgC2 false f s) (.go [] 0) = .stop limitMarkerFull 6
    ∧ aggregateFiles cfgC2 false
        ([⟨S "a.txt", S "a.txt", .content (S "aaaaaa")⟩]
          ++ [⟨S "b.txt", S "b.txt", .content (S "bb")⟩]) = limitMarkerFull
    ∧ stepFile cfgC2 false ⟨S "a.txt", S "a.txt", .content (S "aaaaaa")⟩ (.go [] 0)
        = .stop ([] ++ limitMarkerFull) (0 + (S "aaaaaa").length)
    ∧ customLoop cfgC2 3 [] 0 [.selDir (S "d") true entriesC2]
        = (customSelAccum cfgC2 3 ([], 0) (.selDir (S "d") true entriesC2)).1
          ++ limitMarkerShort :=
  ⟨by decide,
   (C2_budget_stop_behavior cfgC2 false).1
     [⟨S "a.txt", S "a.txt", .content (S "aaaaaa")⟩]
     [⟨S "b.txt", S "b.txt", .content (S "bb")⟩] limitMarkerFull 6 (by decide),
   (C2_budget_stop_behavior cfgC2 false).2.1
     ⟨S "a.txt", S "a.txt", .content (S "aaaaaa")⟩ [] 0 (S "aaaaaa")
     (by decide) (by decide) (by decide) (by decide),
   (C2_budget_stop_behavior cfgC2 false).2.2 3 [] 0
     (.selDir (S "d") true entriesC2) [] (by decide)⟩

/-- C3: invariants of the smart/all aggregation loop — the `total_size`
counter never decreases at a step nor across the loop; from the initial state
the loop always reaches a `GoodState`: while running, the injected content
bytes equal the counter and respect `max_total_size`, and once stopped the
injected bytes still respect `max_total_size` while the counter exceeds it by
exactly the one in-flight content length, the accumulator holding only the
blocks injected before the breach plus the omission marker; and once the loop
has stopped, no step changes the state at all. -/
theorem C3_budget_invariants (cfg : Config) (b : Bool) :
    (∀ (f : WalkFile) (s : AggState), s.total ≤ (stepFile cfg b f s).total)
    ∧ (∀ (s : AggState) (fs : List WalkFile),
        s.total ≤ (fs.foldl (fun s f => stepFile cfg b f s) s).total)
    ∧ (∀ fs : List WalkFile,
        GoodState cfg.max_total_size
          (fs.foldl (fun s f => stepFile cfg b f s) (.go [] 0)))
    ∧ (∀ (acc : List Char) (t : Nat) (fs : List WalkFile),
        fs.foldl (fun s f => stepFile cfg b f s) (.stop acc t) = .stop acc t) :=
  ⟨fun f s => stepFile_total_le cfg b f s,
   fun s fs => foldl_stepFile_total_le cfg b fs s,
   fun fs => goodState_foldl cfg b fs (.go [] 0) ⟨[], rfl, rfl, Nat.zero_le _⟩,
   fun acc t fs => foldl_stepFile_stop cfg b acc t fs⟩

/-- The root of the smart-mode filtering instance of the claim: `main.py`,
`README.md` and `app.log` with non-blank contents. -/
def treeC6 : List Entry :=
  [.file (S "main.py") (.content (S "x = 1")),
   .file (S "README.md") (.content (S "# Hello")),
   .file (S "app.log") (.content (S "log line"))]

/-- C6 counterexample: content inclusion is not equivalent to passing the
importance filter.  `b.py` is not ignored by the default patterns and is
important (`*.py`), yet its whitespace-only content is dropped by the safe
read, so smart mode includes nothing for it. -/
theorem C6_important_file_with_blank_content_excluded :
    should_ignore_file_cg (S "b.py") (defaultConfig .smart).ignore_files = false
    ∧ is_important_file (S "b.py") important_patterns = true
    ∧ smartFilesContent (defaultConfig .smart) 3
        [.file (S "main.py") (.content (S "x = 1")), .file (S "b.py") (.content (S " "))]
      = formatFileContent (S "main.py") (S "x = 1") := by decide

/-- C6 (amended): in smart mode a non-ignored file is read if and only if its
name matches an important pattern or its lower-cased extension is in the
priority set — an ignored file leaves the loop state unchanged, so does a
non-ignored unimportant file, and a non-ignored important file goes through
the read-and-accumulate step (so its content is included exactly when the read
yields non-blank content and the budget is not breached).  On the claim's own
instance, smart aggregation over `main.py`, `README.md`, `app.log` with the
default ignore patterns includes the two former contents and nothing of
`app.log`, which is ignore-matched by `*.log`. -/
theorem C6_smart_mode_filter (cfg : Config) :
    (∀ (f : WalkFile) (acc : List Char) (t : Nat),
        should_ignore_file_cg f.name cfg.ignore_files = true →
        stepFile cfg true f (.go acc t) = .go acc t)
    ∧ (∀ (f : WalkFile) (acc : List Char) (t : Nat),
        should_ignore_file_cg f.name cfg.ignore_files = false →
        is_important_file f.name important_patterns = false →
        stepFile cfg true f (.go acc t) = .go acc t)
    ∧ (∀ (f : WalkFile) (acc : List Char) (t : Nat),
        should_ignore_file_cg f.name cfg.ignore_files = false →
        is_important_file f.name important_patterns = true →
        stepFile cfg true f (.go acc t)
          = match read_file_safe f.data cfg.max_file_size with
            | none => .go acc t
            | some content =>
              if t + content.length > cfg.max_total_size
              then .stop (acc ++ limitMarkerFull) (t + content.length)
              else .go (acc ++ formatFileContent f.relPath content) (t + content.length))
    ∧ smartFilesContent (defaultConfig .smart) 3 treeC6
        = formatFileContent (S "main.py") (S "x = 1")
          ++ formatFileContent (S "README.md") (S "# Hello")
    ∧ should_ignore_file_cg (S "app.log") (defaultConfig .smart).ignore_files = true := by
  refine ⟨?_, ?_, ?_, by decide, by decide⟩
  · intro f acc t hig
    simp [stepFile, hig]
  · intro f acc t hig himp
    simp [stepFile, hig, himp]
  · intro f acc t hig himp
    simp only [stepFile, hig, himp, Bool.not_true, Bool.and_false, if_false,
      Bool.false_eq_true]

/-- C6 witness. -/
theorem C6_smart_mode_filter_witness :
    stepFile (defaultConfig .smart) true
        ⟨S "app.log", S "app.log", .content (S "log line")⟩ (.go [] 0) = .go [] 0
    ∧ stepFile (defaultConfig .smart) true
        ⟨S "notes.xyz", S "notes.xyz", .content (S "note")⟩ (.go [] 0) = .go [] 0
    ∧ stepFile (defaultConfig .smart) true
        ⟨S "main.py", S "main.py", .content (S "x = 1")⟩ (.go [] 0)
      = match read_file_safe (FileData.content (S "x = 1"))
              (defaultConfig .smart).max_file_size with
        | none => .go [] 0
        | some content =>
          if 0 + content.length > (defaultConfig .smart).max_total_size
          then .stop ([] ++ limitMarkerFull) (0 + content.length)
          else .go ([] ++ formatFileContent (S "main.py") content) (0 + content.length) :=
  ⟨(C6_smart_mode_filter (defaultConfig .smart)).1
     ⟨S "app.log", S "app.log", .content (S "log line")⟩ [] 0 (by decide),
   (C6_smart_mode_filter (defaultConfig .smart)).2.1
     ⟨S "notes.xyz", S "notes.xyz", .content (S "note")⟩ [] 0 (by decide) (by decide),
   (C6_smart_mode_filter (defaultConfig .smart)).2.2.1
     ⟨S "main.py", S "main.py", .content (S "x = 1")⟩ [] 0 (by decide) (by decide)⟩

/-- Whether `needle` occurs as a contiguous run anywhere in the text. -/
def occursIn (needle : List Char) : List Char → Bool
  | [] => needle.isEmpty
  | c :: rest => needle.isPrefixOf (c :: rest) || occursIn needle rest

/-- Ignore set and root of the tree-exclusion instance: `.git` and
`node_modules` are ignored subfolders, `utils` a sibling with one file. -/
def igC7 : List (List Char) := [S ".git", S "node_modules"]

/-- Root listing of the tree-exclusion instance. -/
def treeC7 : List Entry :=
  [.dir (S "utils") true [.file (S "helper.py") (.content (S "pass"))],
   .dir (S ".git") true [.file (S "HEAD") (.content (S "ref"))],
   .dir (S "node_modules") true [.file (S "x.js") (.content (S "1"))]]

/-- A root mixing directories and files whose sorted order interleaves them,
to exhibit the sort + dirs-before-files layout and the last-sibling marker. -/
def treeC7b : List Entry :=
  [.file (S "zz.txt") (.content (S "z")),
   .dir (S "b") true [],
   .file (S "a.txt") (.content (S "a"))]

/-- C7: the tree renderer on the claim's instance renders only `utils` and
`helper.py` (neither ignored name occurs anywhere in the output); on a mixed
listing it sorts entries and renders directories before files, marking the
last sibling with the `└──` connector and the others with `├──`; past the
depth limit it emits the placeholder line instead of recursing; and an
unlistable directory renders as the empty subtree. -/
theorem C7_tree_renderer :
    generate_tree igC7 treeC7 = S "Project Tree:\n└── 📁 utils\n    └── 📄 helper.py\n"
    ∧ occursIn (S ".git") (generate_tree igC7 treeC7) = false
    ∧ occursIn (S "node_modules") (generate_tree igC7 treeC7) = false
    ∧ occursIn (S "utils") (generate_tree igC7 treeC7) = true
    ∧ occursIn (S "helper.py") (generate_tree igC7 treeC7) = true
    ∧ generate_tree [] treeC7b
        = S "Project Tree:\n├── 📁 b\n├── 📄 a.txt\n└── 📄 zz.txt\n"
    ∧ (∀ (ig : List (List Char)) (maxDepth fuel : Nat) (readable : Bool)
         (children : List Entry) (pfx : List Char) (depth : Nat),
        maxDepth < depth →
        treeRecursive ig maxDepth (fuel + 1) readable children pfx depth
          = pfx ++ depthLimitLine)
    ∧ (∀ (ig : List (List Char)) (maxDepth fuel : Nat) (children : List Entry)
         (pfx : List Char) (depth : Nat),
        depth ≤ maxDepth →
        treeRecursive ig maxDepth (fuel + 1) false children pfx depth = []) := by
  refine ⟨by decide, by decide, by decide, by decide, by decide, by decide, ?_, ?_⟩
  · intro ig maxDepth fuel readable children pfx depth h
    simp only [treeRecursive, gt_iff_lt, h, if_true]
  · intro ig maxDepth fuel children pfx depth h
    have h2 : ¬ (depth > maxDepth) := by omega
    simp only [treeRecursive, gt_iff_lt, h2, if_false, Bool.false_eq_true]

/-- C7 witness. -/
theorem C7_tree_renderer_witness :
    treeRecursive [] 5 (0 + 1) true [] (S "    ") 6 = S "    " ++ depthLimitLine
    ∧ treeRecursive [] 5 (6 + 1) false
        [.file (S "secret.txt") (.content (S "s"))] [] 0 = [] :=
  ⟨C7_tree_renderer.2.2.2.2.2.2.1 [] 5 0 true [] (S "    ") 6 (by decide),
   C7_tree_renderer.2.2.2.2.2.2.2 [] 5 6
     [.file (S "secret.txt") (.content (S "s"))] [] 0 (by decide)⟩

/-- C8: the file reader converts failures to values instead of raising — an
exception while opening or reading yields the formatted inline error string
(which embeds the failure message), an empty file yields `none`, and in the
aggregation loop a file whose read raised is still rendered inline as an
ordinary content block (the run goes on through the normal append path). -/
theorem C8_read_failures_become_values (cfg : Config) :
    (∀ (msg : List Char) (m : Nat),
        read_file_safe (.ioError msg) m = some (errorText msg))
    ∧ (∀ msg : List Char,
        ∃ pre post, errorText msg = pre ++ msg ++ post)
    ∧ (∀ m : Nat, read_file_safe (.content []) m = none)
    ∧ (∀ (f : WalkFile) (msg acc : List Char) (t : Nat),
        f.data = .ioError msg →
        should_ignore_file_cg f.name cfg.ignore_files = false →
        stepFile cfg false f (.go acc t)
          = if t + (errorText msg).length > cfg.max_total_size
            then .stop (acc ++ limitMarkerFull) (t + (errorText msg).length)
            else .go (acc ++ formatFileContent f.relPath (errorText msg))
                   (t + (errorText msg).length)) := by
  refine ⟨fun msg _ => rfl, ?_, ?_, ?_⟩
  · intro msg
    exact ⟨S "[Error reading file: ", S "]", rfl⟩
  · intro m
    simp [read_file_safe]
  · intro f msg acc t hdata hig
    simp only [stepFile, hig, if_false, Bool.false_and, hdata, read_file_safe,
      Bool.false_eq_true]

/-- C8 witness. -/
theorem C8_read_failures_become_values_witness :
    stepFile (defaultConfig .all) false
        ⟨S "locked.txt", S "locked.txt", .ioError (S "Permission denied")⟩ (.go [] 0)
      = if 0 + (errorText (S "Permission denied")).length
            > (defaultConfig .all).max_total_size
        then .stop ([] ++ limitMarkerFull) (0 + (errorText (S "Permission denied")).length)
        else .go ([] ++ formatFileContent (S "locked.txt") (errorText (S "Permission denied")))
               (0 + (errorText (S "Permission denied")).length) :=
  (C8_read_failures_become_values (defaultConfig .all)).2.2.2
    ⟨S "locked.txt", S "locked.txt", .ioError (S "Permission denied")⟩
    (S "Permission denied") [] 0 rfl (by decide)

/-- C9: the formatted document follows the exact skeleton — banner line,
60-character `=` separator lines, `PROJECT:` line, `SELECTION MODE:` line with
the mode upper-cased, `GENERATED:` timestamp line, a `PROJECT STRUCTURE`
section containing the tree, a `FILE CONTENTS` section containing the
contents, and the fixed trailing guidance text; each per-file block is a
separator line, a `📄 FILE:` header, a separator line, then the raw
content. -/
theorem C9_output_document_skeleton (projectName tree contents timestamp : List Char)
    (cfg : Config) :
    formatOutput projectName tree contents cfg timestamp
      = S "🤖 PROJECT CONTEXT FOR AI ASSISTANCE\n" ++ List.replicate 60 '='
        ++ S "\nPROJECT: " ++ projectName
        ++ S "\nSELECTION MODE: " ++ pyUpper (modeName cfg.selection_mode)
        ++ S "\nGENERATED: " ++ timestamp
        ++ S "\n" ++ List.replicate 60 '='
        ++ S "\n\n📁 PROJECT STRUCTURE:\n" ++ tree
        ++ S "\n\n" ++ List.replicate 60 '='
        ++ S "\n📝 FILE CONTENTS:\n" ++ contents
        ++ S "\n\n" ++ List.replicate 60 '='
        ++ S "\n" ++ guidanceText
    ∧ (List.replicate 60 '=' : List Char).length = 60
    ∧ pyUpper (modeName .smart) = S "SMART"
    ∧ pyUpper (modeName .all) = S "ALL"
    ∧ pyUpper (modeName .custom) = S "CUSTOM"
    ∧ (∃ pre post, formatOutput projectName tree contents cfg timestamp
          = pre ++ tree ++ post)
    ∧ (∃ pre post, formatOutput projectName tree contents cfg timestamp
          = pre ++ contents ++ post)
    ∧ (∀ rp c : List Char,
        formatFileContent rp c
          = S "\n" ++ List.replicate 60 '=' ++ S "\n📄 FILE: " ++ rp ++ S "\n"
            ++ List.replicate 60 '=' ++ S "\n" ++ c ++ S "\n") := by
  refine ⟨rfl, by decide, by decide, by decide, by decide, ?_, ?_, fun rp c => ?_⟩
  · refine ⟨S "🤖 PROJECT CONTEXT FOR AI ASSISTANCE\n" ++ List.replicate 60 '='
      ++ S "\nPROJECT: " ++ projectName
      ++ S "\nSELECTION MODE: " ++ pyUpper (modeName cfg.selection_mode)
      ++ S "\nGENERATED: " ++ timestamp
      ++ S "\n" ++ List.replicate 60 '=' ++ S "\n\n📁 PROJECT STRUCTURE:\n",
      S "\n\n" ++ List.replicate 60 '=' ++ S "\n📝 FILE CONTENTS:\n" ++ contents
      ++ S "\n\n" ++ List.replicate 60 '=' ++ S "\n" ++ guidanceText, ?_⟩
    simp [formatOutput, List.append_assoc]
  · refine ⟨S "🤖 PROJECT CONTEXT FOR AI ASSISTANCE\n" ++ List.replicate 60 '='
      ++ S "\nPROJECT: " ++ projectName
      ++ S "\nSELECTION MODE: " ++ pyUpper (modeName cfg.selection_mode)
      ++ S "\nGENERATED: " ++ timestamp
      ++ S "\n" ++ List.replicate 60 '=' ++ S "\n\n📁 PROJECT STRUCTURE:\n" ++ tree
      ++ S "\n\n" ++ List.replicate 60 '=' ++ S "\n📝 FILE CONTENTS:\n",
      S "\n\n" ++ List.replicate 60 '=' ++ S "\n" ++ guidanceText, ?_⟩
    simp [formatOutput, List.append_assoc]
  · rfl

/-- C10: a file whose decoded content is, after the possible truncation,
empty or whitespace-only is read as `none`, and a `none` read leaves every
accumulation step of every strategy untouched: the smart/all loop state, the
per-file step of the custom directory walk, and the custom single-file step
all keep both the accumulated output and the running size counter
unchanged. -/
theorem C10_blank_content_contributes_nothing (cfg : Config) :
    (∀ (text : List Char) (m : Nat),
        (if (text.take (m * 2)).length > m
         then (text.take (m * 2)).take m ++ truncMarker
         else text.take (m * 2)).all isPySpace = true →
        read_file_safe (.content text) m = none)
    ∧ (∀ (b : Bool) (f : WalkFile) (s : AggState),
        read_file_safe f.data cfg.max_file_size = none →
        stepFile cfg b f s = s)
    ∧ (∀ (st : List Char × Nat) (f : WalkFile),
        read_file_safe f.data cfg.max_file_size = none →
        customDirStep cfg st f = st)
    ∧ (∀ (fuel : Nat) (st : List Char × Nat) (rp : List Char) (d : FileData),
        read_file_safe d cfg.max_file_size = none →
        customSelAccum cfg fuel st (.selFile rp d) = st) := by
  refine ⟨?_, ?_, ?_, ?_⟩
  · intro text m h
    have hany : (if (text.take (m * 2)).length > m
        then (text.take (m * 2)).take m ++ truncMarker
        else text.take (m * 2)).any (fun ch => !isPySpace ch) = false := by
      rw [List.any_eq_false]
      intro x hx
      have := List.all_eq_true.mp h x hx
      simp [this]
    simp only [read_file_safe]
    rw [hany]
    simp
  · intro b f s hread
    cases s with
    | stop acc t => rfl
    | go acc t =>
      simp only [stepFile, hread]
      split
      · rfl
      · split
        · rfl
        · rfl
  · intro st f hread
    simp only [customDirStep, hread]
    split
    · rfl
    · rfl
  · intro fuel st rp d hread
    simp only [customSelAccum, hread]

/-- C10 witness. -/
theorem C10_blank_content_contributes_nothing_witness :
    read_file_safe (.content (S "  ")) 5 = none
    ∧ stepFile (defaultConfig .smart) true
        ⟨S "blank.py", S "blank.py", .content (S "  ")⟩ (.go (S "acc") 7)
        = .go (S "acc") 7
    ∧ customDirStep (defaultConfig .custom) (S "acc", 7)
        ⟨S "blank.py", S "blank.py", .content (S "  ")⟩ = (S "acc", 7)
    ∧ customSelAccum (defaultConfig .custom) 3 (S "acc", 7)
        (.selFile (S "blank.py") (.content (S "  "))) = (S "acc", 7) :=
  ⟨(C10_blank_content_contributes_nothing (defaultConfig .smart)).1 (S "  ") 5 (by decide),
   (C10_blank_content_contributes_nothing (defaultConfig .smart)).2.1 true
     ⟨S "blank.py", S "blank.py", .content (S "  ")⟩ (.go (S "acc") 7) (by decide),
   (C10_blank_content_contributes_nothing (defaultConfig .custom)).2.2.1 (S "acc", 7)
     ⟨S "blank.py", S "blank.py", .content (S "  ")⟩ (by decide),
   (C10_blank_content_contributes_nothing (defaultConfig .custom)).2.2.2 3 (S "acc", 7)
     (S "blank.py") (.content (S "  ")) (by decide)⟩

end ContextGen
